import Mathlib

/-!
# Verification of the gophermart order/ledger core

Shallow embedding of the order-status reconciliation subsystem and
balance ledger of the gophermart repository:

* `isValidLuhn` embeds the function of the same name in
  user_service.go;
* the repository layer (`OrderRepoPG`) is embedded as pure operations
  over a `DB` state holding the `orders` and `balance_transactions`
  tables as lists;
* `UploadOrder`, `WithdrawBalance`, `GetUserBalance` embed the
  corresponding `OrderService` methods;
* `processOrder` / `workerCycle` embed the body of one tick of
  `OrderService.StartOrderStatusWorker`, with the per-order answer of
  the external accrual service abstracted as an `AccrualResult`
  oracle.

Strings handed to the validator are modelled as their byte sequences
(`List Nat`), matching byte indexing `number[i]` in Go; the byte
subtraction of the digit `0` wraps modulo 256 and is embedded as
such. Monetary amounts (float64 in Go) are modelled as rationals.
-/

namespace Gophermart

/-- Bytes of an ASCII string, used to write concrete order numbers.
For ASCII content the byte indexing in Go agrees with this. -/
def ofString (s : String) : List Nat :=
  s.data.map Char.toNat

/-- One pass of the loop in `isValidLuhn`, over the byte list already
reversed (the Go loop runs from the last byte to the first). `dbl`
is the `double` flag in Go. Returns `none` when the loop hits a byte
whose distance from the digit-0 byte (byte arithmetic, mod 256) is
outside 0..9, which in Go causes an immediate `return false`. -/
def luhnLoop : List Nat → Bool → Option Nat
  | [], _ => some 0
  | b :: rest, dbl =>
    let d0 := (b + 208) % 256
    if 9 < d0 then
      none
    else
      let d := if dbl then (if d0 * 2 > 9 then d0 * 2 - 9 else d0 * 2) else d0
      (luhnLoop rest (!dbl)).map (fun s => d + s)

/-- Embeds `service.isValidLuhn`: scan the bytes right-to-left,
doubling every second digit (subtracting 9 when the doubled value
exceeds 9), rejecting non-digit bytes, and accepting iff the sum is
divisible by 10. -/
def isValidLuhn (number : List Nat) : Bool :=
  match luhnLoop number.reverse false with
  | none => false
  | some s => s % 10 == 0

/-- A row of the `orders` table. -/
structure Order where
  id : Int
  orderNumber : List Nat
  userID : Int
  status : String
  deriving DecidableEq, Repr

/-- A row of the `balance_transactions` table. -/
structure Txn where
  userID : Int
  orderID : Option Int
  amount : ℚ
  txType : String
  deriving DecidableEq, Repr

/-- The relational store: the two tables the core touches, plus the
next value of the serial id column of `orders`. -/
structure DB where
  orders : List Order
  txns : List Txn
  nextId : Int
  deriving DecidableEq, Repr

/-- Embeds `OrderRepoPG.CreateOrder`: insert a row into `orders` with
status `NEW`. The UNIQUE constraint on `order_number` makes the
insert fail when the number is already taken. -/
def CreateOrder (db : DB) (number : List Nat) (uid : Int) : Except Unit DB :=
  if db.orders.any (fun o => o.orderNumber == number) then
    .error ()
  else
    .ok { db with
          orders := db.orders ++ [⟨db.nextId, number, uid, "NEW"⟩],
          nextId := db.nextId + 1 }

/-- Embeds `OrderRepoPG.GetOrderByNumber`: select the row of `orders`
with the given number (a no-rows result becomes `none`). -/
def GetOrderByNumber (db : DB) (number : List Nat) : Option Order :=
  db.orders.find? (fun o => o.orderNumber == number)

/-- Embeds `OrderRepoPG.GetOrdersForStatusUpdate`: select the rows of
`orders` whose status is `NEW` or `PROCESSING`. -/
def GetOrdersForStatusUpdate (db : DB) : List Order :=
  db.orders.filter (fun o => o.status == "NEW" || o.status == "PROCESSING")

/-- Embeds `OrderRepoPG.UpdateOrderStatus`: update the status of the
rows of `orders` whose id matches. -/
def UpdateOrderStatus (db : DB) (oid : Int) (st : String) : DB :=
  { db with
    orders := db.orders.map (fun o => if o.id == oid then { o with status := st } else o) }

/-- Embeds `OrderRepoPG.AddBalanceTransaction`: insert a row into
`balance_transactions`. -/
def AddBalanceTransaction (db : DB) (uid : Int) (oid : Option Int)
    (amount : ℚ) (ty : String) : DB :=
  { db with txns := db.txns ++ [⟨uid, oid, amount, ty⟩] }

/-- Embeds `OrderRepoPG.GetUserBalance`: one aggregation over the rows
of the user, summing the ACCRUAL amounts and the WITHDRAWAL amounts
(CASE WHEN in SQL), followed in Go by subtracting the withdrawn sum
from the accrued sum. Returns the pair (current, withdrawn). -/
def GetUserBalance (db : DB) (uid : Int) : ℚ × ℚ :=
  let rows := db.txns.filter (fun t => t.userID == uid)
  let accrual := (rows.map (fun t => if t.txType == "ACCRUAL" then t.amount else 0)).sum
  let withdrawn := (rows.map (fun t => if t.txType == "WITHDRAWAL" then t.amount else 0)).sum
  (accrual - withdrawn, withdrawn)

/-- Service-level error values of `OrderService` (user_service.go). -/
inductive OrderErr where
  | invalidOrderFormat
  | invalidOrderNumber
  | alreadyUploadedByUser
  | alreadyUploadedByAnother
  | insufficientFunds
  | storeErr
  deriving DecidableEq, Repr

/-- Result of a service call: the Go error return plus the store state
after the call. -/
abbrev SvcResult := Except OrderErr Unit × DB

/-- ASCII whitespace, the bytes `strings.TrimSpace` strips on ASCII
input (tab, newline, vertical tab, form feed, carriage return,
space). -/
def isSpaceByte (b : Nat) : Bool :=
  b == 9 || b == 10 || b == 11 || b == 12 || b == 13 || b == 32

/-- Embeds `strings.TrimSpace` on ASCII content: drop leading and
trailing whitespace bytes. -/
def trimSpace (bs : List Nat) : List Nat :=
  ((bs.dropWhile isSpaceByte).reverse.dropWhile isSpaceByte).reverse

/-- Test for a decimal-digit byte. In `UploadOrder` Go ranges over
runes and rejects characters below the digit 0 or above the digit 9;
on the byte model the accept/reject outcome is identical (every byte
of a multi-byte rune lies outside 48..57, as does the rune itself). -/
def isDigitByte (b : Nat) : Bool :=
  48 ≤ b && b ≤ 57

/-- Embeds `OrderService.UploadOrder`: trim, reject empty input as a
format error, reject non-digit content and Luhn failures as
invalid-number errors, report duplicates by owner, otherwise insert
the order in `NEW` status. -/
def UploadOrder (db : DB) (orderNumber : List Nat) (uid : Int) : SvcResult :=
  let n := trimSpace orderNumber
  if n.isEmpty then
    (.error .invalidOrderFormat, db)
  else if !(n.all isDigitByte) then
    (.error .invalidOrderNumber, db)
  else if !(isValidLuhn n) then
    (.error .invalidOrderNumber, db)
  else
    match GetOrderByNumber db n with
    | some o =>
      if o.userID == uid then
        (.error .alreadyUploadedByUser, db)
      else
        (.error .alreadyUploadedByAnother, db)
    | none =>
      match CreateOrder db n uid with
      | .error _ => (.error .storeErr, db)
      | .ok db1 => (.ok (), db1)

/-- Embeds `OrderService.WithdrawBalance`: Luhn-check the number (no
trim, no emptiness or digit check), check the balance, resolve the
order record by number — creating it in `NEW` status under the caller
when absent — and append a WITHDRAWAL entry. -/
def WithdrawBalance (db : DB) (uid : Int) (orderNumber : List Nat)
    (sum : ℚ) : SvcResult :=
  if !(isValidLuhn orderNumber) then
    (.error .invalidOrderNumber, db)
  else
    let current := (GetUserBalance db uid).1
    if sum > current then
      (.error .insufficientFunds, db)
    else
      match GetOrderByNumber db orderNumber with
      | some o => (.ok (), AddBalanceTransaction db uid (some o.id) sum ("WITHDRAWAL"))
      | none =>
        match CreateOrder db orderNumber uid with
        | .error _ => (.error .storeErr, db)
        | .ok db1 =>
          match GetOrderByNumber db1 orderNumber with
          | none => (.error .storeErr, db1)
          | some o => (.ok (), AddBalanceTransaction db1 uid (some o.id) sum ("WITHDRAWAL"))

/-- Decoded JSON payload of a 200 answer from the accrual service:
order number, status, optional accrual amount. -/
structure AccrualPayload where
  order : String
  status : String
  accrual : Option ℚ
  deriving DecidableEq, Repr

/-- Outcome of one `AccrualClient.GetOrder` call as the worker
distinguishes them: transport error, 204, any other non-200 status,
200 with an undecodable body, or 200 with a decoded payload. -/
inductive AccrualResult where
  | transportError
  | noContent
  | otherStatus
  | decodeError
  | ok (p : AccrualPayload)
  deriving DecidableEq, Repr

/-- Embeds the per-order body of the worker loop in
`OrderService.StartOrderStatusWorker`: a transport error, an
unexpected HTTP status or a decode failure skip the order; 204 sets
the status to INVALID; a decoded 200 payload overwrites the status
with the reported string and, when the reported status is PROCESSED
and an accrual amount is present, appends an ACCRUAL entry for the
owner of the order. -/
def processOrder (db : DB) (o : Order) (resp : AccrualResult) : DB :=
  match resp with
  | .transportError => db
  | .noContent => UpdateOrderStatus db o.id ("INVALID")
  | .otherStatus => db
  | .decodeError => db
  | .ok p =>
    let db1 := UpdateOrderStatus db o.id p.status
    if p.accrual.isSome && p.status == "PROCESSED" then
      AddBalanceTransaction db1 o.userID (some o.id)
        (p.accrual.getD 0) ("ACCRUAL")
    else
      db1

/-- Embeds one tick of `StartOrderStatusWorker`: scan the non-terminal
orders once, then process each scanned order in turn against the
answer of the external oracle for its number, threading the store. -/
def workerCycle (db : DB) (oracle : List Nat → AccrualResult) : DB :=
  (GetOrdersForStatusUpdate db).foldl
    (fun acc o => processOrder acc o (oracle o.orderNumber)) db

/-- Well-formedness of the store: the id values of `orders` are
pairwise distinct, as the serial primary key guarantees. -/
abbrev WF (db : DB) : Prop :=
  (db.orders.map Order.id).Nodup

/-- Modelled from the spec (sections 4.1 and 8): the Luhn checksum of
a digit sequence — digits processed right-to-left (`second` marks
every second position), every second digit doubled and 9 subtracted
when the doubled value exceeds 9, all digits summed. -/
def luhnChecksumAux : List Nat → Bool → Nat
  | [], _ => 0
  | d :: rest, second =>
    (if second then (if d * 2 > 9 then d * 2 - 9 else d * 2) else d) +
      luhnChecksumAux rest (!second)

/-- Modelled from the spec: the Luhn checksum of a digit string given
most-significant digit first. -/
def luhnChecksum (digits : List Nat) : Nat :=
  luhnChecksumAux digits.reverse false

/-- Modelled from the spec (section 3): the sum of the amounts of the
entries of a user with a given type. -/
def ledgerTypeSum (db : DB) (uid : Int) (ty : String) : ℚ :=
  ((db.txns.filter (fun t => t.userID == uid && t.txType == ty)).map Txn.amount).sum

/-- The validation gate of `UploadOrder`: the trimmed number is
non-empty, all digits, and Luhn-valid. -/
def passesValidation (n : List Nat) : Prop :=
  trimSpace n ≠ [] ∧ (trimSpace n).all isDigitByte = true ∧
    isValidLuhn (trimSpace n) = true

/-! ## Concrete fixtures used in counterexamples and witnesses -/

/-- Bytes of the Luhn-valid example number 79927398713. -/
def goodNum : List Nat := ofString "79927398713"

/-- Bytes of the Luhn-invalid example number 79927398714. -/
def badNum : List Nat := ofString "79927398714"

/-- Bytes of the Luhn-valid example number 2377225624. -/
def goodNum2 : List Nat := ofString "2377225624"

/-- Store with two NEW orders of the same owner (user 1). -/
def cexC1db : DB := ⟨[⟨1, [49], 1, "NEW"⟩, ⟨2, [50], 1, "NEW"⟩], [], 3⟩

/-- Oracle of the first cycle: order 1 is PROCESSED with accrual 500,
order 2 suffers a transport error. -/
def cexC1oracle1 : List Nat → AccrualResult :=
  fun n => if n == [49] then .ok ⟨"1", "PROCESSED", some 500⟩ else .transportError

/-- Oracle of the second cycle: every queried order is PROCESSED with
accrual 500. -/
def cexC1oracle2 : List Nat → AccrualResult :=
  fun _ => .ok ⟨"2", "PROCESSED", some 500⟩

/-- The store after the first cycle over `cexC1db`. -/
def cexC1mid : DB := workerCycle cexC1db cexC1oracle1

/-- Store with one NEW order (number 79927398713, id 5, user 1) and an
unrelated accrual of 100 for user 2. -/
def cexC3db : DB := ⟨[⟨5, goodNum, 1, "NEW"⟩], [⟨2, none, 100, "ACCRUAL"⟩], 6⟩

/-- The NEW order of `cexC3db`. -/
def cexC3order : Order := ⟨5, goodNum, 1, "NEW"⟩

/-- The store after the worker receives no-content for that order. -/
def cexC3mid : DB := processOrder cexC3db cexC3order .noContent

/-- Store with one PROCESSING order. -/
def cexC4db : DB := ⟨[⟨1, [49], 1, "PROCESSING"⟩], [], 2⟩

/-- Oracle reporting status NEW for every order. -/
def cexC4oracle : List Nat → AccrualResult := fun _ => .ok ⟨"1", "NEW", none⟩

/-- Store where user 1 has current balance 100 and no orders. -/
def cexC6db : DB := ⟨[], [⟨1, none, 100, "ACCRUAL"⟩], 1⟩

/-- The store after user 1 successfully withdraws 50 from `cexC6db`
against order number 79927398713. -/
def witC6after : DB :=
  ⟨[⟨1, goodNum, 1, "NEW"⟩],
   [⟨1, none, 100, "ACCRUAL"⟩, ⟨1, some 1, 50, "WITHDRAWAL"⟩], 2⟩

/-- Store with one PROCESSED order already credited. -/
def witC1db : DB := ⟨[⟨1, goodNum, 1, "PROCESSED"⟩], [⟨1, some 1, 500, "ACCRUAL"⟩], 2⟩

/-- Store with one PROCESSING order, used to exercise the worker on a
decoded 200 payload. -/
def witC2db : DB := ⟨[⟨3, [49], 4, "PROCESSING"⟩], [], 4⟩

/-- Store with one NEW order, used to exercise the no-content path. -/
def witC3db : DB := ⟨[⟨1, [49], 1, "NEW"⟩], [], 2⟩

/-- Store with order number 79927398713 owned by user 7. -/
def witC7db : DB := ⟨[⟨1, goodNum, 7, "NEW"⟩], [], 2⟩

/-- Store with order number 79927398713 owned by user 1, while user 2
holds a balance of 100. -/
def witC10db : DB := ⟨[⟨1, goodNum, 1, "NEW"⟩], [⟨2, none, 100, "ACCRUAL"⟩], 2⟩

/-- Store with one INVALID order already credited once. -/
def witC4db : DB := ⟨[⟨9, [50], 3, "INVALID"⟩], [⟨3, some 9, 5, "ACCRUAL"⟩], 10⟩

/-- The two ledger type tags differ (left to right). -/
lemma str_ainw : ("ACCRUAL" : String) ≠ "WITHDRAWAL" := by decide

/-- The two ledger type tags differ (right to left). -/
lemma str_wina : ("WITHDRAWAL" : String) ≠ "ACCRUAL" := by decide

/-! ## Luhn lemmas -/

/-- On digit bytes the loop of `isValidLuhn` never rejects and computes
the spec checksum of the corresponding digit values. -/
lemma luhnLoop_digits (l : List Nat) : ∀ (dbl : Bool), (∀ b ∈ l, 48 ≤ b ∧ b ≤ 57) →
    luhnLoop l dbl = some (luhnChecksumAux (l.map (fun b => b - 48)) dbl) := by
  induction l with
  | nil => intro dbl _; rfl
  | cons b rest ih =>
    intro dbl h
    have hb := h b (List.mem_cons_self b rest)
    have hd : (b + 208) % 256 = b - 48 := by omega
    have hle : ¬ (9 < (b + 208) % 256) := by omega
    simp only [luhnLoop, List.map_cons, luhnChecksumAux, hd]
    rw [if_neg (hd ▸ hle)]
    rw [ih (!dbl) (fun x hx => h x (List.mem_cons_of_mem b hx))]
    simp [hd]

/-- On a digit-byte string, `isValidLuhn` tests exactly divisibility of
the spec checksum by 10. -/
lemma isValidLuhn_digits (bs : List Nat) (h : ∀ b ∈ bs, 48 ≤ b ∧ b ≤ 57) :
    isValidLuhn bs = (luhnChecksum (bs.map (fun b => b - 48)) % 10 == 0) := by
  unfold isValidLuhn luhnChecksum
  rw [luhnLoop_digits bs.reverse false (fun b hb => h b (List.mem_reverse.mp hb))]
  rw [← List.map_reverse]

/-! ## Row-lookup lemmas -/

/-- A status update keyed to a different id does not change the result
of a lookup by id. -/
lemma find_id_upd_ne (l : List Order) {oid tid : Int} (st : String) (h : oid ≠ tid) :
    (l.map (fun o => if o.id == oid then { o with status := st } else o)).find?
      (fun r => r.id == tid) = l.find? (fun r => r.id == tid) := by
  induction l with
  | nil => rfl
  | cons a l ih =>
    simp only [List.map_cons]
    by_cases ha : a.id = oid
    · have h1 : ((if a.id == oid then { a with status := st } else a) : Order)
          = { a with status := st } := by simp [ha]
      have h3 : (a.id == tid) = false := beq_eq_false_iff_ne.mpr (ha ▸ h)
      rw [h1, List.find?_cons_of_neg _ (by simpa using h3),
        List.find?_cons_of_neg _ (by simpa using h3), ih]
    · have h1 : ((if a.id == oid then { a with status := st } else a) : Order) = a := by
        simp [ha]
      rw [h1]
      by_cases h2 : a.id = tid
      · rw [List.find?_cons_of_pos _ (by simpa using h2),
          List.find?_cons_of_pos _ (by simpa using h2)]
      · rw [List.find?_cons_of_neg _ (by simpa using h2),
          List.find?_cons_of_neg _ (by simpa using h2), ih]

/-- With pairwise-distinct ids, looking a member row up by its id finds
exactly that row. -/
lemma find_id_mem_nodup : ∀ (l : List Order), (l.map Order.id).Nodup →
    ∀ {o : Order}, o ∈ l → l.find? (fun r => r.id == o.id) = some o := by
  intro l
  induction l with
  | nil => intro _ o ho; cases ho
  | cons a l ih =>
    intro hn o ho
    rw [List.map_cons, List.nodup_cons] at hn
    rcases List.mem_cons.mp ho with rfl | hmem
    · rw [List.find?_cons_of_pos _ (by simp)]
    · have hne : (a.id == o.id) = false := by
        refine beq_eq_false_iff_ne.mpr (fun heq => hn.1 ?_)
        exact heq ▸ List.mem_map_of_mem Order.id hmem
      rw [List.find?_cons_of_neg _ (by simpa using hne)]
      exact ih hn.2 hmem

/-- A status update does not change the id column. -/
lemma map_upd_ids (l : List Order) (oid : Int) (st : String) :
    (l.map (fun o => if o.id == oid then { o with status := st } else o)).map Order.id
      = l.map Order.id := by
  rw [List.map_map]
  refine List.map_congr_left (fun a _ => ?_)
  by_cases ha : a.id = oid <;> simp [ha]

/-- `UpdateOrderStatus` keeps the store well-formed. -/
lemma WF_update (db : DB) (oid : Int) (st : String) (h : WF db) :
    WF (UpdateOrderStatus db oid st) := by
  unfold WF UpdateOrderStatus at *
  rw [map_upd_ids]
  exact h

/-- Updating the status of a member row by its id makes the lookup by
that id return the updated row. -/
lemma find_id_upd_self (db : DB) (hwf : WF db) {o : Order} (ho : o ∈ db.orders)
    (st : String) :
    (UpdateOrderStatus db o.id st).orders.find? (fun r => r.id == o.id)
      = some { o with status := st } := by
  have hmem : ({ o with status := st } : Order) ∈ (UpdateOrderStatus db o.id st).orders := by
    unfold UpdateOrderStatus
    refine List.mem_map.mpr ⟨o, ho, ?_⟩
    simp
  have hn : ((UpdateOrderStatus db o.id st).orders.map Order.id).Nodup := WF_update db o.id st hwf
  have := find_id_mem_nodup _ hn hmem
  exact this

/-! ## Worker-step invariance lemmas -/

/-- A status update does not touch the ledger table. -/
lemma upd_txns (db : DB) (oid : Int) (st : String) :
    (UpdateOrderStatus db oid st).txns = db.txns := rfl

/-- A ledger append does not touch the orders table. -/
lemma addTx_orders (db : DB) (uid : Int) (oid : Option Int) (a : ℚ) (ty : String) :
    (AddBalanceTransaction db uid oid a ty).orders = db.orders := rfl

/-- Processing one scanned order never moves the lookup of a row with
a different id. -/
lemma processOrder_orders_find_ne (db : DB) (o : Order) (resp : AccrualResult) {tid : Int}
    (h : o.id ≠ tid) :
    (processOrder db o resp).orders.find? (fun r => r.id == tid)
      = db.orders.find? (fun r => r.id == tid) := by
  cases resp with
  | transportError => rfl
  | otherStatus => rfl
  | decodeError => rfl
  | noContent => exact find_id_upd_ne db.orders _ h
  | ok p =>
    simp only [processOrder]
    split
    · exact find_id_upd_ne db.orders _ h
    · exact find_id_upd_ne db.orders _ h

/-- Processing one scanned order leaves every ledger-entry filter
untouched, provided the filter rejects the one entry the step could
append (an ACCRUAL entry of this order). -/
lemma processOrder_txns_filter_inv (db : DB) (o : Order) (resp : AccrualResult)
    (q : Txn → Bool) (hq : ∀ a : ℚ, q ⟨o.userID, some o.id, a, "ACCRUAL"⟩ = false) :
    (processOrder db o resp).txns.filter q = db.txns.filter q := by
  cases resp with
  | transportError => rfl
  | otherStatus => rfl
  | decodeError => rfl
  | noContent => rfl
  | ok p =>
    simp only [processOrder]
    split
    · show ((UpdateOrderStatus db o.id p.status).txns
          ++ [(⟨o.userID, some o.id, p.accrual.getD 0, "ACCRUAL"⟩ : Txn)]).filter q
          = db.txns.filter q
      rw [List.filter_append, upd_txns]
      simp [hq]
    · rfl

/-- Processing one scanned order appends at most one entry matching
any given ledger filter. -/
lemma processOrder_filter_le (db : DB) (o : Order) (resp : AccrualResult) (q : Txn → Bool) :
    ((processOrder db o resp).txns.filter q).length ≤ (db.txns.filter q).length + 1 := by
  cases resp with
  | transportError => exact Nat.le_succ _
  | otherStatus => exact Nat.le_succ _
  | decodeError => exact Nat.le_succ _
  | noContent => exact Nat.le_succ _
  | ok p =>
    simp only [processOrder]
    split
    · show (((UpdateOrderStatus db o.id p.status).txns
          ++ [(⟨o.userID, some o.id, p.accrual.getD 0, "ACCRUAL"⟩ : Txn)]).filter q).length
          ≤ (db.txns.filter q).length + 1
      rw [List.filter_append, List.length_append, upd_txns]
      have : ([(⟨o.userID, some o.id, p.accrual.getD 0, "ACCRUAL"⟩ : Txn)].filter q).length ≤ 1 :=
        List.length_filter_le _ _
      omega
    · exact Nat.le_succ _

/-- Folding the worker step over scanned orders whose ids all differ
from a target id leaves the lookup of the target row unchanged. -/
lemma foldl_process_find_ne (oracle : List Nat → AccrualResult) {tid : Int} :
    ∀ (os : List Order), (∀ o ∈ os, o.id ≠ tid) → ∀ db : DB,
      ((os.foldl (fun acc o => processOrder acc o (oracle o.orderNumber)) db).orders.find?
        (fun r => r.id == tid)) = db.orders.find? (fun r => r.id == tid) := by
  intro os
  induction os with
  | nil => intro _ db; rfl
  | cons o os ih =>
    intro h db
    rw [List.foldl_cons, ih (fun x hx => h x (List.mem_cons_of_mem _ hx)) _]
    exact processOrder_orders_find_ne db o _ (h o (List.mem_cons_self _ _))

/-- Folding the worker step over scanned orders leaves a ledger filter
untouched when the filter rejects every entry the steps could
append. -/
lemma foldl_process_filter_inv (oracle : List Nat → AccrualResult) (q : Txn → Bool) :
    ∀ (os : List Order),
      (∀ o ∈ os, ∀ a : ℚ, q ⟨o.userID, some o.id, a, "ACCRUAL"⟩ = false) → ∀ db : DB,
      ((os.foldl (fun acc o => processOrder acc o (oracle o.orderNumber)) db).txns.filter q)
        = db.txns.filter q := by
  intro os
  induction os with
  | nil => intro _ db; rfl
  | cons o os ih =>
    intro h db
    rw [List.foldl_cons, ih (fun x hx => h x (List.mem_cons_of_mem _ hx)) _]
    exact processOrder_txns_filter_inv db o _ q (h o (List.mem_cons_self _ _))

/-- Folding the worker step over a scan with pairwise-distinct ids
appends at most one ACCRUAL entry referencing any given order id. -/
lemma foldl_process_count (oracle : List Nat → AccrualResult) (tid : Int) :
    ∀ (os : List Order), (os.map Order.id).Nodup → ∀ db : DB,
      (((os.foldl (fun acc o => processOrder acc o (oracle o.orderNumber)) db).txns.filter
          (fun t => t.orderID == some tid && t.txType == "ACCRUAL")).length)
        ≤ ((db.txns.filter
          (fun t => t.orderID == some tid && t.txType == "ACCRUAL")).length) + 1 := by
  intro os
  induction os with
  | nil => intro _ db; exact Nat.le_succ _
  | cons o os ih =>
    intro hn db
    rw [List.map_cons, List.nodup_cons] at hn
    rw [List.foldl_cons]
    by_cases ho : o.id = tid
    · have hrest : ∀ x ∈ os, x.id ≠ tid := by
        intro x hx heq
        exact hn.1 (ho ▸ heq ▸ List.mem_map_of_mem Order.id hx)
      rw [foldl_process_filter_inv oracle _ os
        (fun x hx a => by simp [beq_eq_false_iff_ne.mpr (hrest x hx)]) _]
      exact processOrder_filter_le db o _ _
    · have hstep := processOrder_txns_filter_inv db o (oracle o.orderNumber)
        (fun t => t.orderID == some tid && t.txType == "ACCRUAL")
        (fun a => by simp [beq_eq_false_iff_ne.mpr ho])
      calc _ ≤ ((processOrder db o (oracle o.orderNumber)).txns.filter
            (fun t => t.orderID == some tid && t.txType == "ACCRUAL")).length + 1 :=
          ih hn.2 _
        _ = _ := by rw [hstep]

/-! ## Scan lemmas -/

/-- Members of the scan are non-terminal rows of the store. -/
lemma mem_scan {db : DB} {o' : Order} (h : o' ∈ GetOrdersForStatusUpdate db) :
    o' ∈ db.orders ∧ (o'.status = "NEW" ∨ o'.status = "PROCESSING") := by
  unfold GetOrdersForStatusUpdate at h
  rw [List.mem_filter] at h
  refine ⟨h.1, ?_⟩
  have h2 := h.2
  simp only [Bool.or_eq_true, beq_iff_eq] at h2
  exact h2

/-- A terminal row is never a member of the scan. -/
lemma scan_not_mem_of_terminal {db : DB} {o : Order}
    (ht : o.status = "PROCESSED" ∨ o.status = "INVALID") :
    o ∉ GetOrdersForStatusUpdate db := by
  intro hmem
  obtain ⟨_, hst⟩ := mem_scan hmem
  rcases ht with h1 | h1 <;> rcases hst with h2 | h2 <;>
    · rw [h1] at h2
      exact absurd h2 (by decide)

/-- In a well-formed store, every scanned order has an id different
from that of any terminal row. -/
lemma scan_ne_of_terminal {db : DB} (hwf : WF db) {o : Order} (ho : o ∈ db.orders)
    (ht : o.status = "PROCESSED" ∨ o.status = "INVALID") :
    ∀ o' ∈ GetOrdersForStatusUpdate db, o'.id ≠ o.id := by
  intro o' h' heq
  obtain ⟨hmem, hst⟩ := mem_scan h'
  have heqo : o' = o := List.inj_on_of_nodup_map hwf hmem ho heq
  subst heqo
  rcases ht with h1 | h1 <;> rcases hst with h2 | h2 <;>
    · rw [h1] at h2
      exact absurd h2 (by decide)

/-- In a well-formed store the scanned ids are pairwise distinct. -/
lemma scan_nodup {db : DB} (hwf : WF db) :
    ((GetOrdersForStatusUpdate db).map Order.id).Nodup :=
  hwf.sublist ((List.filter_sublist _).map _)

/-! ## Ledger aggregation lemmas -/

/-- The CASE-WHEN aggregation over the rows of a user equals the sum
over the rows filtered by user and type. -/
lemma sum_case_filter (l : List Txn) (uid : Int) (ty : String) :
    ((l.filter (fun t => t.userID == uid)).map
        (fun t => if t.txType == ty then t.amount else 0)).sum
      = ((l.filter (fun t => t.userID == uid && t.txType == ty)).map Txn.amount).sum := by
  induction l with
  | nil => rfl
  | cons t l ih =>
    by_cases hu : t.userID = uid
    · by_cases hty : t.txType = ty
      · simpa [List.filter_cons, hu, hty] using ih
      · simpa [List.filter_cons, hu, hty] using ih
    · simpa [List.filter_cons, hu] using ih

/-- The balance only reads the ledger table. -/
lemma getBalance_txns_only {db1 db2 : DB} (h : db1.txns = db2.txns) (uid : Int) :
    GetUserBalance db1 uid = GetUserBalance db2 uid := by
  unfold GetUserBalance
  rw [h]

/-- Appending a WITHDRAWAL entry lowers the current balance of its
user by the withdrawn amount. -/
lemma balance_addWithdrawal (db : DB) (uid : Int) (oid : Option Int) (s : ℚ) :
    (GetUserBalance (AddBalanceTransaction db uid oid s ("WITHDRAWAL")) uid).1
      = (GetUserBalance db uid).1 - s := by
  unfold GetUserBalance AddBalanceTransaction
  simp [List.filter_append, List.sum_append]
  ring

/-! ## Service-path lemmas -/

/-- `WithdrawBalance` on a Luhn-invalid number: invalid-number error,
store untouched. -/
lemma withdraw_luhn_fail (db : DB) (uid : Int) (n : List Nat) (s : ℚ)
    (hl : isValidLuhn n = false) :
    WithdrawBalance db uid n s = (.error .invalidOrderNumber, db) := by
  unfold WithdrawBalance
  simp [hl]

/-- `WithdrawBalance` with a valid number but a sum above the current
balance: insufficient-funds error, store untouched. -/
lemma withdraw_insufficient_eq (db : DB) (uid : Int) (n : List Nat) (s : ℚ)
    (hl : isValidLuhn n = true) (hgt : s > (GetUserBalance db uid).1) :
    WithdrawBalance db uid n s = (.error .insufficientFunds, db) := by
  unfold WithdrawBalance
  simp [hl, hgt]

/-- `WithdrawBalance` past both guards: the order record is resolved
by number alone — reused whatever its owner, created fresh under the
caller only when absent — and a WITHDRAWAL entry for the caller is
appended against its id. -/
lemma withdraw_eq_cases (db : DB) (uid : Int) (n : List Nat) (s : ℚ)
    (hl : isValidLuhn n = true) (hgt : ¬ s > (GetUserBalance db uid).1) :
    (∀ o : Order, GetOrderByNumber db n = some o →
      WithdrawBalance db uid n s
        = (.ok (), AddBalanceTransaction db uid (some o.id) s ("WITHDRAWAL"))) ∧
    (GetOrderByNumber db n = none →
      WithdrawBalance db uid n s
        = (.ok (), AddBalanceTransaction
            { db with
              orders := db.orders ++ [⟨db.nextId, n, uid, "NEW"⟩],
              nextId := db.nextId + 1 }
            uid (some db.nextId) s ("WITHDRAWAL"))) := by
  constructor
  · intro o hfind
    unfold WithdrawBalance
    simp [hl, hgt, hfind]
  · intro hfind
    have hnone := List.find?_eq_none.mp hfind
    have hany : (db.orders.any fun o => o.orderNumber == n) = false :=
      List.any_eq_false.mpr hnone
    have hfind2 : GetOrderByNumber
        { db with
          orders := db.orders ++ [⟨db.nextId, n, uid, "NEW"⟩],
          nextId := db.nextId + 1 } n
        = some ⟨db.nextId, n, uid, "NEW"⟩ := by
      unfold GetOrderByNumber at hfind ⊢
      rw [List.find?_append, hfind]
      simp
    unfold WithdrawBalance CreateOrder
    simp [hl, hgt, hfind, hany, hfind2]

/-- `UploadOrder` on input that trims to empty: format error, store
untouched. -/
lemma upload_empty (db : DB) (n : List Nat) (uid : Int) (h : trimSpace n = []) :
    UploadOrder db n uid = (.error .invalidOrderFormat, db) := by
  unfold UploadOrder
  simp [h]

/-- `UploadOrder` on trimmed input containing a non-digit:
invalid-number error, store untouched. -/
lemma upload_nondigit (db : DB) (n : List Nat) (uid : Int)
    (h1 : trimSpace n ≠ []) (h2 : (trimSpace n).all isDigitByte = false) :
    UploadOrder db n uid = (.error .invalidOrderNumber, db) := by
  unfold UploadOrder
  simp [List.isEmpty_iff, h1, h2]

/-- `UploadOrder` on digit input failing the Luhn check:
invalid-number error, store untouched. -/
lemma upload_luhn_fail (db : DB) (n : List Nat) (uid : Int)
    (h1 : trimSpace n ≠ []) (h2 : (trimSpace n).all isDigitByte = true)
    (h3 : isValidLuhn (trimSpace n) = false) :
    UploadOrder db n uid = (.error .invalidOrderNumber, db) := by
  unfold UploadOrder
  simp [List.isEmpty_iff, h1, h2, h3]

/-- `UploadOrder` on a valid number already present: conflict report
chosen by owner, store untouched. -/
lemma upload_dup (db : DB) (n : List Nat) (uid : Int) (o : Order)
    (hv : passesValidation n) (hfind : GetOrderByNumber db (trimSpace n) = some o) :
    UploadOrder db n uid
      = (.error (if o.userID == uid then .alreadyUploadedByUser else .alreadyUploadedByAnother),
         db) := by
  obtain ⟨h1, h2, h3⟩ := hv
  unfold UploadOrder
  simp only [List.isEmpty_iff, h2, h3, hfind]
  rw [if_neg (by simpa using h1)]
  simp
  by_cases ho : o.userID = uid <;> simp [ho]

/-- `UploadOrder` on a valid absent number: the order is inserted in
NEW status under the submitting user. -/
lemma upload_create (db : DB) (n : List Nat) (uid : Int)
    (hv : passesValidation n) (hfind : GetOrderByNumber db (trimSpace n) = none) :
    UploadOrder db n uid
      = (.ok (), { db with
          orders := db.orders ++ [⟨db.nextId, trimSpace n, uid, "NEW"⟩],
          nextId := db.nextId + 1 }) := by
  obtain ⟨h1, h2, h3⟩ := hv
  have hany : (db.orders.any fun o => o.orderNumber == trimSpace n) = false :=
    List.any_eq_false.mpr (List.find?_eq_none.mp hfind)
  unfold UploadOrder CreateOrder
  simp only [List.isEmpty_iff, h2, h3, hfind, hany]
  rw [if_neg (by simpa using h1)]
  simp

/-- The orders table after `UploadOrder`: unchanged, or extended by
the one new row. -/
lemma upload_orders_cases (db : DB) (n : List Nat) (uid : Int) :
    (UploadOrder db n uid).2.orders = db.orders ∨
    (UploadOrder db n uid).2.orders
      = db.orders ++ [⟨db.nextId, trimSpace n, uid, "NEW"⟩] := by
  by_cases h1 : trimSpace n = []
  · rw [upload_empty db n uid h1]; left; rfl
  by_cases h2 : (trimSpace n).all isDigitByte
  case neg =>
    rw [upload_nondigit db n uid h1 (by simpa using h2)]; left; rfl
  by_cases h3 : isValidLuhn (trimSpace n)
  case neg =>
    rw [upload_luhn_fail db n uid h1 h2 (by simpa using h3)]; left; rfl
  rcases hfind : GetOrderByNumber db (trimSpace n) with _ | o
  · rw [upload_create db n uid ⟨h1, h2, h3⟩ hfind]; right; rfl
  · rw [upload_dup db n uid o ⟨h1, h2, h3⟩ hfind]; left; rfl

/-- The orders table after `WithdrawBalance`: unchanged, or extended
by the one lazily created row. -/
lemma withdraw_orders_cases (db : DB) (uid : Int) (n : List Nat) (s : ℚ) :
    (WithdrawBalance db uid n s).2.orders = db.orders ∨
    (WithdrawBalance db uid n s).2.orders = db.orders ++ [⟨db.nextId, n, uid, "NEW"⟩] := by
  by_cases hl : isValidLuhn n
  case neg =>
    rw [withdraw_luhn_fail db uid n s (by simpa using hl)]; left; rfl
  by_cases hgt : s > (GetUserBalance db uid).1
  · rw [withdraw_insufficient_eq db uid n s hl hgt]; left; rfl
  · rcases hfind : GetOrderByNumber db n with _ | o
    · rw [(withdraw_eq_cases db uid n s hl hgt).2 hfind]; right; rfl
    · rw [(withdraw_eq_cases db uid n s hl hgt).1 o hfind]; left; rfl

/-- Finding in the left part of an append wins. -/
lemma find_append_some {α : Type} {l1 : List α} (l2 : List α) {p : α → Bool} {a : α}
    (h : l1.find? p = some a) : (l1 ++ l2).find? p = some a := by
  rw [List.find?_append, h]
  rfl

/-! ## Claim theorems -/

/-- C8: for every non-empty string of decimal digits, `isValidLuhn`
accepts iff the Luhn checksum of its digits — processed right to
left, doubling every second digit, subtracting 9 when a doubled digit
exceeds 9, and summing — is divisible by 10; in particular the number
79927398713 is accepted and 79927398714 rejected. The embedding is a
pure function, as the source is. -/
theorem isValidLuhn_correct (bs : List Nat) (_hne : bs ≠ [])
    (hdig : ∀ b ∈ bs, 48 ≤ b ∧ b ≤ 57) :
    (isValidLuhn bs = true ↔ luhnChecksum (bs.map (fun b => b - 48)) % 10 = 0) ∧
    isValidLuhn goodNum = true ∧ isValidLuhn badNum = false := by
  refine ⟨?_, by decide, by decide⟩
  rw [isValidLuhn_digits bs hdig]
  simp

/-- Witness for C8 at the digit string 79927398713. -/
theorem isValidLuhn_correct_witness :
    (isValidLuhn goodNum = true ↔ luhnChecksum (goodNum.map (fun b => b - 48)) % 10 = 0) ∧
    isValidLuhn goodNum = true ∧ isValidLuhn badNum = false :=
  isValidLuhn_correct goodNum (by decide) (by decide)

/-- C9: `isValidLuhn` accepts the empty string, and `WithdrawBalance`
performs no trimming, emptiness or digit check of its own, so a
withdrawal against the empty order number is never rejected with the
invalid-number error: it reaches the balance check and ends in
success or in insufficient-funds. -/
theorem withdraw_empty_number :
    isValidLuhn [] = true ∧
    ∀ (db : DB) (uid : Int) (s : ℚ),
      (WithdrawBalance db uid [] s).1 = .ok () ∨
      (WithdrawBalance db uid [] s).1 = .error .insufficientFunds := by
  refine ⟨rfl, ?_⟩
  intro db uid s
  by_cases hgt : s > (GetUserBalance db uid).1
  · right
    rw [withdraw_insufficient_eq db uid [] s rfl hgt]
  · left
    rcases hfind : GetOrderByNumber db [] with _ | o
    · rw [(withdraw_eq_cases db uid [] s rfl hgt).2 hfind]
    · rw [(withdraw_eq_cases db uid [] s rfl hgt).1 o hfind]

/-- C5: the balance of a user is derived from the ledger alone:
current equals the ACCRUAL sum minus the WITHDRAWAL sum of the user,
withdrawn equals the WITHDRAWAL sum, after any sequence of ledger
writes (i.e. over every store state). -/
theorem getUserBalance_is_ledger_sums (db : DB) (uid : Int) :
    GetUserBalance db uid
      = (ledgerTypeSum db uid ("ACCRUAL") - ledgerTypeSum db uid ("WITHDRAWAL"),
         ledgerTypeSum db uid ("WITHDRAWAL")) := by
  unfold GetUserBalance ledgerTypeSum
  dsimp only
  rw [sum_case_filter db.txns uid ("ACCRUAL"), sum_case_filter db.txns uid ("WITHDRAWAL")]

/-- C7: `UploadOrder` trims whitespace; an input that trims to empty
yields the format error, a non-digit character or a Luhn failure the
invalid-number error, in each case leaving the store untouched (in
particular before any store write); a duplicate number yields the
already-uploaded-by-this-user or claimed-by-another-user error by
owner, creating no row and leaving the existing order untouched;
otherwise the order is created in NEW status. -/
theorem uploadOrder_contract (db : DB) (n : List Nat) (uid : Int) :
    (trimSpace n = [] → UploadOrder db n uid = (.error .invalidOrderFormat, db)) ∧
    (trimSpace n ≠ [] → (trimSpace n).all isDigitByte = false →
      UploadOrder db n uid = (.error .invalidOrderNumber, db)) ∧
    (trimSpace n ≠ [] → (trimSpace n).all isDigitByte = true →
      isValidLuhn (trimSpace n) = false →
      UploadOrder db n uid = (.error .invalidOrderNumber, db)) ∧
    (∀ o : Order, passesValidation n → GetOrderByNumber db (trimSpace n) = some o →
      o.userID = uid → UploadOrder db n uid = (.error .alreadyUploadedByUser, db)) ∧
    (∀ o : Order, passesValidation n → GetOrderByNumber db (trimSpace n) = some o →
      o.userID ≠ uid → UploadOrder db n uid = (.error .alreadyUploadedByAnother, db)) ∧
    (passesValidation n → GetOrderByNumber db (trimSpace n) = none →
      UploadOrder db n uid = (.ok (), { db with
        orders := db.orders ++ [⟨db.nextId, trimSpace n, uid, "NEW"⟩],
        nextId := db.nextId + 1 })) := by
  refine ⟨upload_empty db n uid,
    upload_nondigit db n uid,
    upload_luhn_fail db n uid,
    fun o hv hfind ho => ?_,
    fun o hv hfind ho => ?_,
    upload_create db n uid⟩
  · rw [upload_dup db n uid o hv hfind]
    simp [ho]
  · rw [upload_dup db n uid o hv hfind]
    simp [ho]

/-- Witness for C7: the format-error, duplicate-same-owner,
duplicate-other-owner and creation branches at concrete inputs. -/
theorem uploadOrder_contract_witness :
    UploadOrder (⟨[], [], 1⟩ : DB) [32] 7 = (.error .invalidOrderFormat, (⟨[], [], 1⟩ : DB)) ∧
    UploadOrder witC7db goodNum 7 = (.error .alreadyUploadedByUser, witC7db) ∧
    UploadOrder witC7db goodNum 9 = (.error .alreadyUploadedByAnother, witC7db) ∧
    UploadOrder (⟨[], [], 1⟩ : DB) badNum 7
      = (.error .invalidOrderNumber, (⟨[], [], 1⟩ : DB)) := by
  refine ⟨(uploadOrder_contract (⟨[], [], 1⟩ : DB) [32] 7).1 (by decide),
    (uploadOrder_contract witC7db goodNum 7).2.2.2.1 ⟨1, goodNum, 7, "NEW"⟩
      ⟨by decide, by decide, by decide⟩ (by decide) (by decide),
    (uploadOrder_contract witC7db goodNum 9).2.2.2.2.1 ⟨1, goodNum, 7, "NEW"⟩
      ⟨by decide, by decide, by decide⟩ (by decide) (by decide),
    (uploadOrder_contract (⟨[], [], 1⟩ : DB) badNum 7).2.2.1 (by decide) (by decide)
      (by decide)⟩

/-- C6 counterexample: with balance 100, a withdrawal of 150 against
the Luhn-invalid number consisting of the single digit 1 exceeds the
balance yet fails with the invalid-number error, not with
insufficient-funds, refuting the claim as stated. -/
theorem withdraw_insufficient_cex :
    150 > (GetUserBalance cexC6db 1).1 ∧
    (WithdrawBalance cexC6db 1 [49] 150).1 = .error .invalidOrderNumber ∧
    (WithdrawBalance cexC6db 1 [49] 150).1 ≠ .error .insufficientFunds := by
  have hbal : (GetUserBalance cexC6db 1).1 = 100 := by
    norm_num [GetUserBalance, cexC6db, str_ainw]
  have hw : WithdrawBalance cexC6db 1 [49] 150 = (.error .invalidOrderNumber, cexC6db) :=
    withdraw_luhn_fail _ _ _ _ (by decide)
  refine ⟨by rw [hbal]; norm_num, by rw [hw], by rw [hw]; simp⟩

/-- C6 (amended): a withdrawal whose number passes the Luhn check and
whose sum strictly exceeds the current balance fails with
insufficient-funds and writes nothing; and after every successful
withdrawal the current balance of the user is non-negative. -/
theorem withdraw_insufficient_guard (db : DB) (uid : Int) (n : List Nat) (s : ℚ) :
    (isValidLuhn n = true → s > (GetUserBalance db uid).1 →
      WithdrawBalance db uid n s = (.error .insufficientFunds, db)) ∧
    (∀ db' : DB, WithdrawBalance db uid n s = (.ok (), db') →
      0 ≤ (GetUserBalance db' uid).1) := by
  constructor
  · exact withdraw_insufficient_eq db uid n s
  · intro db' h
    by_cases hl : isValidLuhn n
    case neg =>
      rw [withdraw_luhn_fail db uid n s (by simpa using hl)] at h
      exact absurd h (by simp)
    by_cases hgt : s > (GetUserBalance db uid).1
    · rw [withdraw_insufficient_eq db uid n s hl hgt] at h
      exact absurd h (by simp)
    · have hs : s ≤ (GetUserBalance db uid).1 := not_lt.mp hgt
      rcases hfind : GetOrderByNumber db n with _ | o
      · rw [(withdraw_eq_cases db uid n s hl hgt).2 hfind] at h
        obtain rfl : db' = _ := (congrArg Prod.snd h).symm
        rw [balance_addWithdrawal,
          @getBalance_txns_only
            { db with
              orders := db.orders ++ [⟨db.nextId, n, uid, "NEW"⟩],
              nextId := db.nextId + 1 }
            db rfl uid]
        linarith
      · rw [(withdraw_eq_cases db uid n s hl hgt).1 o hfind] at h
        obtain rfl : db' = _ := (congrArg Prod.snd h).symm
        rw [balance_addWithdrawal]
        linarith

/-- Witness for C6: balance 100, withdrawing 150 fails with
insufficient-funds leaving the store as it was; and the balance after
a successful withdrawal of 50 is non-negative. -/
theorem withdraw_insufficient_guard_witness :
    WithdrawBalance cexC6db 1 goodNum 150 = (.error .insufficientFunds, cexC6db) ∧
    0 ≤ (GetUserBalance witC6after 1).1 := by
  have hbal : (GetUserBalance cexC6db 1).1 = 100 := by
    norm_num [GetUserBalance, cexC6db, str_ainw]
  have hok : WithdrawBalance cexC6db 1 goodNum 50 = (.ok (), witC6after) := by
    rw [(withdraw_eq_cases cexC6db 1 goodNum 50 (by decide)
      (by rw [hbal]; norm_num)).2 rfl]
    rfl
  exact ⟨(withdraw_insufficient_guard cexC6db 1 goodNum 150).1 (by decide)
      (by rw [hbal]; norm_num),
    (withdraw_insufficient_guard cexC6db 1 goodNum 50).2 witC6after hok⟩

/-- C10: past its guards, `WithdrawBalance` resolves the order record
by number alone, with no ownership check: when a record exists — of
whatever owner — no row is created and the WITHDRAWAL entry is
recorded under the calling user against that record; a fresh NEW
order owned by the caller is created only when no record with that
number exists. -/
theorem withdraw_resolves_by_number (db : DB) (uid : Int) (n : List Nat) (s : ℚ)
    (hl : isValidLuhn n = true) (hgt : ¬ s > (GetUserBalance db uid).1) :
    (∀ o : Order, GetOrderByNumber db n = some o →
      (WithdrawBalance db uid n s).2.orders = db.orders ∧
      (WithdrawBalance db uid n s).2.txns = db.txns ++ [⟨uid, some o.id, s, "WITHDRAWAL"⟩]) ∧
    (GetOrderByNumber db n = none →
      (WithdrawBalance db uid n s).2.orders = db.orders ++ [⟨db.nextId, n, uid, "NEW"⟩] ∧
      (WithdrawBalance db uid n s).2.txns
        = db.txns ++ [⟨uid, some db.nextId, s, "WITHDRAWAL"⟩]) := by
  constructor
  · intro o hfind
    rw [(withdraw_eq_cases db uid n s hl hgt).1 o hfind]
    exact ⟨rfl, rfl⟩
  · intro hfind
    rw [(withdraw_eq_cases db uid n s hl hgt).2 hfind]
    exact ⟨rfl, rfl⟩

/-- Witness for C10: user 2 withdraws against the order of user 1
(entry recorded for user 2 against order id 1, no row created), and
against an absent number (fresh NEW row owned by user 2). -/
theorem withdraw_resolves_by_number_witness :
    ((WithdrawBalance witC10db 2 goodNum 60).2.orders = witC10db.orders ∧
      (WithdrawBalance witC10db 2 goodNum 60).2.txns
        = witC10db.txns ++ [⟨2, some 1, 60, "WITHDRAWAL"⟩]) ∧
    ((WithdrawBalance witC10db 2 goodNum2 30).2.orders
        = witC10db.orders ++ [⟨2, goodNum2, 2, "NEW"⟩] ∧
      (WithdrawBalance witC10db 2 goodNum2 30).2.txns
        = witC10db.txns ++ [⟨2, some 2, 30, "WITHDRAWAL"⟩]) := by
  have hbal : (GetUserBalance witC10db 2).1 = 100 := by
    norm_num [GetUserBalance, witC10db, str_ainw]
  constructor
  · exact (withdraw_resolves_by_number witC10db 2 goodNum 60 (by decide)
      (by rw [hbal]; norm_num)).1 ⟨1, goodNum, 1, "NEW"⟩ (by decide)
  · exact (withdraw_resolves_by_number witC10db 2 goodNum2 30 (by decide)
      (by rw [hbal]; norm_num)).2 (by decide)

/-- C2: on a decoded 200 payload the worker overwrites the local
status of the queried order with exactly the reported status string,
and appends an ACCRUAL entry for the owner of the order with the
reported amount if and only if the reported status is PROCESSED and
the accrual field is present. -/
theorem worker_success_overwrite (db : DB) (o : Order) (p : AccrualPayload)
    (hwf : WF db) (ho : o ∈ db.orders) :
    (processOrder db o (.ok p)).orders.find? (fun r => r.id == o.id)
      = some { o with status := p.status } ∧
    (processOrder db o (.ok p)).txns
      = (if p.status = "PROCESSED" ∧ p.accrual ≠ none then
          db.txns ++ [⟨o.userID, some o.id, p.accrual.getD 0, "ACCRUAL"⟩]
        else db.txns) := by
  constructor
  · simp only [processOrder]
    split
    · exact find_id_upd_self db hwf ho p.status
    · exact find_id_upd_self db hwf ho p.status
  · simp only [processOrder]
    split
    · rename_i hc
      rw [Bool.and_eq_true, beq_iff_eq] at hc
      rw [if_pos ⟨hc.2, Option.isSome_iff_ne_none.mp hc.1⟩]
      rfl
    · rename_i hc
      have hn : ¬ (p.status = "PROCESSED" ∧ p.accrual ≠ none) := by
        intro hcon
        exact hc (by
          rw [Bool.and_eq_true, beq_iff_eq]
          exact ⟨Option.isSome_iff_ne_none.mpr hcon.2, hcon.1⟩)
      rw [if_neg hn]
      rfl

/-- Witness for C2: a PROCESSING order reported PROCESSED with
accrual 7 is overwritten and credited. -/
theorem worker_success_overwrite_witness :
    (processOrder witC2db ⟨3, [49], 4, "PROCESSING"⟩
        (.ok ⟨"1", "PROCESSED", some 7⟩)).orders.find? (fun r => r.id == (3 : Int))
      = some ⟨3, [49], 4, "PROCESSED"⟩ ∧
    (processOrder witC2db ⟨3, [49], 4, "PROCESSING"⟩
        (.ok ⟨"1", "PROCESSED", some 7⟩)).txns
      = (if ("PROCESSED" : String) = "PROCESSED" ∧ (some (7 : ℚ)) ≠ none then
          witC2db.txns ++ [⟨4, some 3, 7, "ACCRUAL"⟩]
        else witC2db.txns) :=
  worker_success_overwrite witC2db ⟨3, [49], 4, "PROCESSING"⟩ ⟨"1", "PROCESSED", some 7⟩
    (by decide) (by decide)

/-- C3 counterexample: order 5 (number 79927398713) receives
no-content and becomes INVALID with no ledger write; yet a later
withdrawal by user 2 against the same number succeeds and records a
WITHDRAWAL ledger entry referencing order 5 — so a ledger entry is
created for an order the oracle reported unknown, refuting the
universal "no ledger entry is ever created for such an order". -/
theorem worker_nocontent_cex :
    cexC3mid.orders = [⟨5, goodNum, 1, "INVALID"⟩] ∧
    cexC3mid.txns = cexC3db.txns ∧
    (WithdrawBalance cexC3mid 2 goodNum 50).1 = .ok () ∧
    (WithdrawBalance cexC3mid 2 goodNum 50).2.txns
      = cexC3db.txns ++ [⟨2, some 5, 50, "WITHDRAWAL"⟩] := by
  have hbal : (GetUserBalance cexC3mid 2).1 = 100 := by
    rw [@getBalance_txns_only cexC3mid cexC3db rfl 2]
    norm_num [GetUserBalance, cexC3db, str_ainw]
  have hw := (withdraw_eq_cases cexC3mid 2 goodNum 50 (by decide)
    (by rw [hbal]; norm_num)).1 ⟨5, goodNum, 1, "INVALID"⟩ (by decide)
  exact ⟨by decide, rfl, by rw [hw], by rw [hw]; rfl⟩

/-- C3 (amended): on no-content the worker sets the order INVALID and
writes nothing to the ledger in that step, and no later worker cycle
ever adds a ledger entry referencing that order (its INVALID status
keeps it out of every scan); a withdrawal may however still reference
such an order. -/
theorem worker_nocontent_invalid (db : DB) (o : Order) (hwf : WF db) (ho : o ∈ db.orders) :
    (processOrder db o .noContent).orders.find? (fun r => r.id == o.id)
      = some { o with status := "INVALID" } ∧
    (processOrder db o .noContent).txns = db.txns ∧
    ∀ oracle : List Nat → AccrualResult,
      (workerCycle (processOrder db o .noContent) oracle).txns.filter
          (fun t => t.orderID == some o.id)
        = db.txns.filter (fun t => t.orderID == some o.id) := by
  refine ⟨find_id_upd_self db hwf ho ("INVALID"), rfl, ?_⟩
  intro oracle
  have hwf1 : WF (processOrder db o .noContent) := WF_update db o.id ("INVALID") hwf
  have hmem : ({ o with status := "INVALID" } : Order) ∈ (processOrder db o .noContent).orders := by
    show _ ∈ (UpdateOrderStatus db o.id ("INVALID")).orders
    unfold UpdateOrderStatus
    exact List.mem_map.mpr ⟨o, ho, by simp⟩
  have hne := scan_ne_of_terminal hwf1 hmem (Or.inr rfl)
  unfold workerCycle
  rw [foldl_process_filter_inv oracle _ (GetOrdersForStatusUpdate (processOrder db o .noContent))
    (fun x hx a => by simpa using hne x hx) (processOrder db o .noContent)]
  rfl

/-- Witness for C3 at a one-order store and the always-failing
oracle. -/
theorem worker_nocontent_invalid_witness :
    (processOrder witC3db ⟨1, [49], 1, "NEW"⟩ .noContent).orders.find?
        (fun r => r.id == (1 : Int)) = some ⟨1, [49], 1, "INVALID"⟩ ∧
    (processOrder witC3db ⟨1, [49], 1, "NEW"⟩ .noContent).txns = witC3db.txns ∧
    (workerCycle (processOrder witC3db ⟨1, [49], 1, "NEW"⟩ .noContent)
        (fun _ => .transportError)).txns.filter (fun t => t.orderID == some 1)
      = witC3db.txns.filter (fun t => t.orderID == some 1) := by
  have h := worker_nocontent_invalid witC3db ⟨1, [49], 1, "NEW"⟩ (by decide) (by decide)
  exact ⟨h.1, h.2.1, h.2.2 (fun _ => .transportError)⟩

/-- C4 counterexample: a PROCESSING order for which the oracle
reports status NEW is moved back to NEW by the worker, refuting the
claim that no status change is ever a reversal. -/
theorem worker_reverts_processing_cex :
    cexC4db.orders.find? (fun r => r.id == (1 : Int)) = some ⟨1, [49], 1, "PROCESSING"⟩ ∧
    (workerCycle cexC4db cexC4oracle).orders.find? (fun r => r.id == (1 : Int))
      = some ⟨1, [49], 1, "NEW"⟩ := by
  decide

/-- C4 (amended): a terminal row (PROCESSED or INVALID) is never
changed by any operation — neither a worker cycle (terminal rows are
outside the scan) nor `UploadOrder` nor `WithdrawBalance` (which only
ever append rows); the worker may however move a PROCESSING order
back to NEW when the oracle reports NEW, so monotonicity holds only
out of terminal states. -/
theorem terminal_never_reverted (db : DB) (o : Order) (oracle : List Nat → AccrualResult)
    (n : List Nat) (uid : Int) (s : ℚ) (hwf : WF db) (ho : o ∈ db.orders)
    (ht : o.status = "PROCESSED" ∨ o.status = "INVALID") :
    (workerCycle db oracle).orders.find? (fun r => r.id == o.id) = some o ∧
    (UploadOrder db n uid).2.orders.find? (fun r => r.id == o.id) = some o ∧
    (WithdrawBalance db uid n s).2.orders.find? (fun r => r.id == o.id) = some o := by
  have hfind : db.orders.find? (fun r => r.id == o.id) = some o := find_id_mem_nodup _ hwf ho
  refine ⟨?_, ?_, ?_⟩
  · unfold workerCycle
    rw [foldl_process_find_ne oracle _ (scan_ne_of_terminal hwf ho ht) db]
    exact hfind
  · rcases upload_orders_cases db n uid with h | h
    · rw [h]; exact hfind
    · rw [h]; exact find_append_some _ hfind
  · rcases withdraw_orders_cases db uid n s with h | h
    · rw [h]; exact hfind
    · rw [h]; exact find_append_some _ hfind

/-- Witness for C4: an INVALID order survives a crediting oracle, an
upload and a withdrawal unchanged. -/
theorem terminal_never_reverted_witness :
    (workerCycle witC4db (fun _ => .ok ⟨"", "PROCESSED", some 1⟩)).orders.find?
        (fun r => r.id == (9 : Int)) = some ⟨9, [50], 3, "INVALID"⟩ ∧
    (UploadOrder witC4db goodNum 3).2.orders.find? (fun r => r.id == (9 : Int))
      = some ⟨9, [50], 3, "INVALID"⟩ ∧
    (WithdrawBalance witC4db 3 goodNum 1).2.orders.find? (fun r => r.id == (9 : Int))
      = some ⟨9, [50], 3, "INVALID"⟩ :=
  terminal_never_reverted witC4db ⟨9, [50], 3, "INVALID"⟩
    (fun _ => .ok ⟨"", "PROCESSED", some 1⟩) goodNum 3 1 (by decide) (by decide)
    (Or.inr rfl)

/-- C1 counterexample: user 1 owns orders 1 and 2, both NEW. A first
cycle sets order 1 PROCESSED and credits 500 (order 2 errors out).
The claim then asserts every later cycle leaves the balance of the
owner of order 1 unchanged — but the next cycle processes order 2 and
raises that balance from 500 to 1000. -/
theorem worker_terminal_once_cex :
    cexC1mid.orders.find? (fun r => r.id == (1 : Int)) = some ⟨1, [49], 1, "PROCESSED"⟩ ∧
    cexC1mid.txns = [⟨1, some 1, 500, "ACCRUAL"⟩] ∧
    (GetUserBalance cexC1mid 1).1 = 500 ∧
    (GetUserBalance (workerCycle cexC1mid cexC1oracle2) 1).1 = 1000 ∧
    (GetUserBalance (workerCycle cexC1mid cexC1oracle2) 1).1
      ≠ (GetUserBalance cexC1mid 1).1 := by
  have h2 : cexC1mid.txns = [⟨1, some 1, 500, "ACCRUAL"⟩] := by decide
  have h4 : (workerCycle cexC1mid cexC1oracle2).txns
      = [⟨1, some 1, 500, "ACCRUAL"⟩, ⟨1, some 2, 500, "ACCRUAL"⟩] := by decide
  have hb1 : (GetUserBalance cexC1mid 1).1 = 500 := by
    rw [@getBalance_txns_only cexC1mid (⟨[], [⟨1, some 1, 500, "ACCRUAL"⟩], 0⟩ : DB) h2 1]
    norm_num [GetUserBalance, str_ainw]
  have hb2 : (GetUserBalance (workerCycle cexC1mid cexC1oracle2) 1).1 = 1000 := by
    rw [@getBalance_txns_only (workerCycle cexC1mid cexC1oracle2)
      (⟨[], [⟨1, some 1, 500, "ACCRUAL"⟩, ⟨1, some 2, 500, "ACCRUAL"⟩], 0⟩ : DB) h4 1]
    norm_num [GetUserBalance, str_ainw]
  exact ⟨by decide, h2, hb1, hb2, by rw [hb1, hb2]; norm_num⟩

/-- C1 (amended): the scan returns only NEW or PROCESSING orders, so
a terminal order (PROCESSED or INVALID) is never selected again: any
later cycle leaves its row and the ledger entries referencing it
unchanged; moreover a single cycle appends at most one ACCRUAL entry
per order. (The balance of its owner may still change through other
orders of the same owner.) -/
theorem worker_terminal_once (db : DB) (oracle : List Nat → AccrualResult) (o : Order)
    (hwf : WF db) (ho : o ∈ db.orders) :
    (∀ o' ∈ GetOrdersForStatusUpdate db, o'.status = "NEW" ∨ o'.status = "PROCESSING") ∧
    (o.status = "PROCESSED" ∨ o.status = "INVALID" →
      o ∉ GetOrdersForStatusUpdate db ∧
      (workerCycle db oracle).orders.find? (fun r => r.id == o.id) = some o ∧
      (workerCycle db oracle).txns.filter (fun t => t.orderID == some o.id)
        = db.txns.filter (fun t => t.orderID == some o.id)) ∧
    ((workerCycle db oracle).txns.filter
        (fun t => t.orderID == some o.id && t.txType == "ACCRUAL")).length
      ≤ ((db.txns.filter
        (fun t => t.orderID == some o.id && t.txType == "ACCRUAL")).length) + 1 := by
  refine ⟨fun o' h' => (mem_scan h').2, fun ht => ⟨scan_not_mem_of_terminal ht, ?_, ?_⟩, ?_⟩
  · unfold workerCycle
    rw [foldl_process_find_ne oracle _ (scan_ne_of_terminal hwf ho ht) db]
    exact find_id_mem_nodup _ hwf ho
  · unfold workerCycle
    rw [foldl_process_filter_inv oracle _ _
      (fun x hx a => by simpa using scan_ne_of_terminal hwf ho ht x hx) db]
  · unfold workerCycle
    exact foldl_process_count oracle o.id _ (scan_nodup hwf) db

/-- Witness for C1 at a one-order store whose order is PROCESSED. -/
theorem worker_terminal_once_witness :
    (⟨1, goodNum, 1, "PROCESSED"⟩ : Order) ∉ GetOrdersForStatusUpdate witC1db ∧
    (workerCycle witC1db (fun _ => .transportError)).orders.find?
        (fun r => r.id == (1 : Int)) = some ⟨1, goodNum, 1, "PROCESSED"⟩ ∧
    (workerCycle witC1db (fun _ => .transportError)).txns.filter
        (fun t => t.orderID == some 1)
      = witC1db.txns.filter (fun t => t.orderID == some 1) ∧
    ((workerCycle witC1db (fun _ => .transportError)).txns.filter
        (fun t => t.orderID == some 1 && t.txType == "ACCRUAL")).length
      ≤ ((witC1db.txns.filter
        (fun t => t.orderID == some 1 && t.txType == "ACCRUAL")).length) + 1 := by
  have h := worker_terminal_once witC1db (fun _ => .transportError)
    ⟨1, goodNum, 1, "PROCESSED"⟩ (by decide) (by decide)
  have h2 := h.2.1 (Or.inl rfl)
  exact ⟨h2.1, h2.2.1, h2.2.2, h.2.2⟩

end Gophermart
